import Mathlib

/-!
Verification of the name accessor/mutator subsystem of `src/internal/attr.c`
(`rlang_names2` and `rlang_set_names`), shallowly embedded over a model of
the host runtime's values.  External evaluator operations (the call templates
`names(.x)`, `as.character(.x)`, `as_function(.x)`, `names<-`(.x, .y)` and the
concatenation function `c`, all delegated to the host and not defined under
`src/`) are abstracted as a `Host` structure; `stdHost` models the host's
default (non-overridden) semantics as described by the spec's external
interface section.
-/

set_option autoImplicit false

namespace Rlang

/-- A runtime character-string: either the missing-string sentinel (`NA_STRING`)
or an interned string.  The canonical empty string is `RStr.str ""`. -/
inductive RStr where
  | na : RStr
  | str (s : String) : RStr
deriving DecidableEq, Repr

/-- Attributes relevant to this core: the optional `names` attribute and
whether the value carries a user-defined class (`r_is_object`). -/
structure Attrib where
  names : Option (List RStr)
  obj : Bool
deriving DecidableEq, Repr

/-- No names, not an object. -/
def Attrib.plain : Attrib := ⟨none, false⟩

/-- Model of the host `sexp*` values relevant to `attr.c`:
`null`, symbols, pairlist cells (`LISTSXP`), call cells (`LANGSXP`),
environments (with an object flag so classed environments are representable),
atomic vectors, generic lists, and closures. -/
inductive Sexp where
  | null : Sexp
  | sym (name : String) : Sexp
  | cons (tag : Option String) (car : Sexp) (cdr : Sexp) : Sexp
  | lang (tag : Option String) (car : Sexp) (cdr : Sexp) : Sexp
  | environment (id : Nat) (obj : Bool) : Sexp
  | chr (elts : List RStr) (attr : Attrib) : Sexp
  | int (elts : List Int) (attr : Attrib) : Sexp
  | lgl (elts : List Bool) (attr : Attrib) : Sexp
  | vec (elts : List Sexp) (attr : Attrib) : Sexp
  | closure (id : Nat) : Sexp

/-- The type tags distinguished by `r_typeof` in `attr.c`. -/
inductive RType where
  | nilT | symT | listT | langT | envT | chrT | intT | lglT | vecT | cloT
deriving DecidableEq, Repr

/-- `r_typeof`. -/
def r_typeof : Sexp → RType
  | .null => .nilT
  | .sym _ => .symT
  | .cons _ _ _ => .listT
  | .lang _ _ _ => .langT
  | .environment _ _ => .envT
  | .chr _ _ => .chrT
  | .int _ _ => .intT
  | .lgl _ _ => .lglT
  | .vec _ _ => .vecT
  | .closure _ => .cloT

/-- `x == r_null`. -/
def r_is_null : Sexp → Bool
  | .null => true
  | _ => false

/-- `r_is_object`: whether the value carries a user-defined class. -/
def r_is_object : Sexp → Bool
  | .chr _ a => a.obj
  | .int _ a => a.obj
  | .lgl _ a => a.obj
  | .vec _ a => a.obj
  | .environment _ o => o
  | _ => false

/-- `r_length`: element count of vectors, cell count of node chains,
1 for symbols and closures, 0 for null. -/
def r_length : Sexp → Nat
  | .null => 0
  | .sym _ => 1
  | .cons _ _ cdr => 1 + r_length cdr
  | .lang _ _ cdr => 1 + r_length cdr
  | .environment _ _ => 0
  | .chr l _ => l.length
  | .int l _ => l.length
  | .lgl l _ => l.length
  | .vec l _ => l.length
  | .closure _ => 1

/-- `r_names`: the non-allocating fast-path accessor for the `names`
attribute.  Returns the bare character vector of names, or `null` when the
attribute is absent (and for values that carry no attributes). -/
def r_names : Sexp → Sexp
  | .chr _ a | .int _ a | .lgl _ a | .vec _ a =>
    match a.names with
    | some l => .chr l Attrib.plain
    | none => .null
  | _ => .null

/-- `r_is_vector(x, -1)`: atomic vectors and generic lists, any length. -/
def r_is_vector : Sexp → Bool
  | .chr _ _ => true
  | .int _ _ => true
  | .lgl _ _ => true
  | .vec _ _ => true
  | _ => false

/-- `r_is_character(x, n)` as used at the final gate: a character vector of
length exactly `n`. -/
def r_is_character (x : Sexp) (n : Nat) : Bool :=
  match x with
  | .chr l _ => l.length == n
  | _ => false

/-- `r_is_function`. -/
def r_is_function : Sexp → Bool
  | .closure _ => true
  | _ => false

/-- Modelled from the spec: `r_is_formula(x, -1, -1)` (defined outside
`src/`) recognises the formula shorthand for a naming strategy: a
call-expression whose head is the `~` operator. -/
def r_is_formula : Sexp → Bool
  | .lang _ (.sym s) _ => s == "~"
  | _ => false

/-- The tag of each cell of a node chain, rendered as the canonical empty
string when the tag is absent and as the tag's text otherwise; this is the
walk performed by the loop of `r_node_names`. -/
def nodeTagStr : Sexp → List RStr
  | .cons tag _ cdr =>
    (match tag with | none => RStr.str "" | some s => RStr.str s) :: nodeTagStr cdr
  | .lang tag _ cdr =>
    (match tag with | none => RStr.str "" | some s => RStr.str s) :: nodeTagStr cdr
  | _ => []

/-- `r_node_names`: structural name extraction for pairlists and calls.
(The C allocates the output vector, fills it by walking the cells, and its
internal KEEP/FREE pair is balanced.) -/
def r_node_names (x : Sexp) : Sexp := Sexp.chr (nodeTagStr x) Attrib.plain

/-- Replace the missing-string sentinel by the canonical empty string. -/
def naToEmpty (s : RStr) : RStr := if s = RStr.na then RStr.str "" else s

/-- Modelled from the spec: `rlang_replace_na(nms, r_shared_empty_chr)`
(defined outside `src/`) replaces every missing-string entry of a character
vector by the canonical empty string, preserving order and length. -/
def rlang_replace_na : Sexp → Sexp
  | .chr l a => .chr (l.map naToEmpty) a
  | x => x

/-- The cars of a node chain, in order (used for the arguments carried by
the captured dots). -/
def nodeCars : Sexp → List Sexp
  | .cons _ car cdr => car :: nodeCars cdr
  | .lang _ car cdr => car :: nodeCars cdr
  | _ => []

/-- A node chain is proper: its cells end in `null`. -/
def properChain : Sexp → Bool
  | .null => true
  | .cons _ _ cdr => properChain cdr
  | .lang _ _ cdr => properChain cdr
  | _ => false

/-- The host invariant on the `names` attribute: when present it has the
owner's length. -/
def namesOk (a : Attrib) (n : Nat) : Bool :=
  match a.names with
  | none => true
  | some nl => nl.length == n

/-- Well-formedness of an input value: names attributes have the owner's
length, and node chains are proper. -/
def wfNames : Sexp → Bool
  | .chr l a => namesOk a l.length
  | .int l a => namesOk a l.length
  | .lgl l a => namesOk a l.length
  | .vec l a => namesOk a l.length
  | .cons _ _ cdr => properChain cdr
  | .lang _ _ cdr => properChain cdr
  | _ => true

/-- Outcome of an operation together with the protection-stack depth on
normal return.  An error propagates without a depth: the host's unwinding
(outside `src/`) restores the stack, see `depthAfter`. -/
inductive Res where
  | ok (v : Sexp) (depth : Nat) : Res
  | err (msg : String) : Res

/-- Lift a depth-neutral host-evaluator outcome at the current depth. -/
def liftE (e : Except String Sexp) (d : Nat) : Res :=
  match e with
  | Except.ok v => Res.ok v d
  | Except.error m => Res.err m

/-- Modelled from the spec: the protection-stack depth observable after an
operation invoked at depth `entry`.  On normal return it is the returned
depth; when an error propagates, the host's condition system unwinds the
protection stack back to the entry depth (the release-on-abort contract of
the spec's resource model; the unwinding itself is host code outside
`src/`). -/
def depthAfter (r : Res) (entry : Nat) : Nat :=
  match r with
  | Res.ok _ d => d
  | Res.err _ => entry

/-- The external evaluator operations consumed by `attr.c` through its call
templates (all defined outside `src/`; the spec's external-interface
section).  Host evaluations are depth-neutral: the evaluator balances its
own protections, and results are protected by the caller. -/
structure Host where
  /-- The `names(.x)` template (read-generic-names), dispatching on `x`. -/
  namesDispatch : Sexp → Sexp → Except String Sexp
  /-- The `as.character(.x)` template (coerce-to-name-strings). -/
  asCharacter : Sexp → Sexp → Except String Sexp
  /-- The `as_function(.x)` template (coerce-to-callable). -/
  asFunction : Sexp → Sexp → Except String Sexp
  /-- `r_fn_eval_in_with_x_dots`: evaluate `fn(x, ...)` with the dots
  spliced after the first positional argument. -/
  fnEval : Sexp → Sexp → Sexp → Sexp → Except String Sexp
  /-- `r_c_eval_in_with_x_dots`: evaluate `c(x, ...)`. -/
  cEval : Sexp → Sexp → Sexp → Except String Sexp
  /-- The `names<-`(.x, .y) template (assign-generic-names). -/
  setNamesDispatch : Sexp → Sexp → Sexp → Except String Sexp

/-- The usage-error message of `rlang_names2` for environments. -/
def envNamesMsg : String := "Use `env_names()` for environments."

/-- The type-error message of `rlang_set_names` for non-vector `x`. -/
def xVecMsg : String := "`x` must be a vector"

/-- The final-gate error message of `rlang_set_names`. -/
def nmLenMsg : String := "`nm` must be `NULL` or a character vector the same length as `x`"

/-- `rlang_names2(x, env)` at protection depth `d`: abort on environments;
structural extraction for pairlists and calls; otherwise read names via
dispatch (objects) or the fast path, then synthesize an all-empty vector
when absent (`KEEP`, `KEEP`, `FREE(2)`) or replace missing entries
(`KEEP`, `KEEP`, `FREE(2)`). -/
def rlang_names2 (h : Host) (x env : Sexp) (d : Nat) : Res :=
  if r_typeof x = RType.envT then
    Res.err envNamesMsg
  else if r_typeof x = RType.listT ∨ r_typeof x = RType.langT then
    Res.ok (r_node_names x) d
  else
    match (if r_is_object x then h.namesDispatch x env else Except.ok (r_names x)) with
    | Except.error e => Res.err e
    | Except.ok nms =>
      if r_is_null nms then
        Res.ok (Sexp.chr (List.replicate (r_length x) (RStr.str "")) Attrib.plain) (d + 1 + 1 - 2)
      else
        Res.ok (rlang_replace_na nms) (d + 1 + 1 - 2)

/-- The shared tail of `rlang_set_names` (its final gate and assignment):
check that the candidate `c` is a character vector of `x`'s length, then
delegate to the `names<-` template and `FREE(k)` the `k` protections
acquired since entry, `dep` being the depth reached on this path. -/
def set_names_finish (h : Host) (x c env : Sexp) (dep k : Nat) : Res :=
  if r_is_character c (r_length x) then
    match h.setNamesDispatch x c env with
    | Except.error e => Res.err e
    | Except.ok y => Res.ok y (dep - k)
  else
    Res.err nmLenMsg

/-- `rlang_set_names(x, mold, nm, env)` at protection depth `d`.  The
captured dots (`rlang_dots(env)`, captured outside `src/`) are passed as an
explicit argument, matching the spec's signature; its `KEEP_N` is the first
acquisition (`n_kept = 1`).  Strategy resolution then follows the source:
absent `nm` delegates with a null name argument; a function or formula `nm`
is applied to the mold's names (or its character-coerced values when it has
none) with the dots; a direct `nm` is first concatenated with non-empty
dots via `c`, then character-coerced.  Each intermediate is `KEEP_N`-ed,
and every path ends in the shared gate + assignment + `FREE(n_kept)`. -/
def rlang_set_names (h : Host) (x mold nm dots env : Sexp) (d : Nat) : Res :=
  if r_is_vector x = false then
    Res.err xVecMsg
  else if r_is_null nm then
    match h.setNamesDispatch x Sexp.null env with
    | Except.error e => Res.err e
    | Except.ok y => Res.ok y (d + 1 - 1)
  else if r_is_function nm || r_is_formula nm then
    match (if r_is_null (r_names mold) then liftE (h.asCharacter mold env) (d + 1) else rlang_names2 h mold env (d + 1)) with
    | Res.err e => Res.err e
    | Res.ok m dm =>
      match h.asFunction nm env with
      | Except.error e => Res.err e
      | Except.ok f =>
        match h.fnEval f m dots env with
        | Except.error e => Res.err e
        | Except.ok c => set_names_finish h x c env (dm + 1 + 1 + 1) 4
  else if 0 < r_length dots then
    match h.cEval nm dots env with
    | Except.error e => Res.err e
    | Except.ok nm1 =>
      match h.asCharacter nm1 env with
      | Except.error e => Res.err e
      | Except.ok c => set_names_finish h x c env (d + 1 + 1 + 1) 3
  else
    match h.asCharacter nm env with
    | Except.error e => Res.err e
    | Except.ok c => set_names_finish h x c env (d + 1 + 1) 2

/-- Set or remove the `names` attribute on a vector (identity elsewhere). -/
def withNames : Sexp → Option (List RStr) → Sexp
  | .chr l a, nm => .chr l ⟨nm, a.obj⟩
  | .int l a, nm => .int l ⟨nm, a.obj⟩
  | .lgl l a, nm => .lgl l ⟨nm, a.obj⟩
  | .vec l a, nm => .vec l ⟨nm, a.obj⟩
  | x, _ => x

/-- Modelled from the spec: the host's default `names` method (the
read-generic-names template resolving to the default accessor). -/
def stdNamesDispatch (x _env : Sexp) : Except String Sexp :=
  Except.ok (r_names x)

/-- Modelled from the spec: the host's `coerce_to_character` on the value
kinds exercised here (attributes are dropped, integers and logicals are
rendered in their decimal and TRUE/FALSE forms). -/
def stdAsCharacter (x _env : Sexp) : Except String Sexp :=
  match x with
  | Sexp.null => Except.ok (Sexp.chr [] Attrib.plain)
  | Sexp.chr l _ => Except.ok (Sexp.chr l Attrib.plain)
  | Sexp.int l _ => Except.ok (Sexp.chr (l.map (fun i => RStr.str (toString i))) Attrib.plain)
  | Sexp.lgl l _ => Except.ok (Sexp.chr (l.map (fun b => RStr.str (if b then "TRUE" else "FALSE"))) Attrib.plain)
  | Sexp.sym s => Except.ok (Sexp.chr [RStr.str s] Attrib.plain)
  | _ => Except.error "cannot coerce to character"

/-- Modelled from the spec: the host's `as_function` on values that are
already callable (formula conversion is host magic left abstract). -/
def stdAsFunction (x _env : Sexp) : Except String Sexp :=
  if r_is_function x then Except.ok x else Except.error "cannot coerce to function"

/-- Closure application is external to this core; the standard host leaves
it abstract (witness hosts override this field). -/
def stdFnEval (_f _x _dots _env : Sexp) : Except String Sexp :=
  Except.error "function evaluation is external"

/-- Character arguments of a `c(...)` evaluation, flattened in order;
`none` when an argument is not a character vector. -/
def chrArgs : List Sexp → Option (List RStr)
  | [] => some []
  | Sexp.chr l _ :: rest => (chrArgs rest).map (fun r => l ++ r)
  | _ => none

/-- Modelled from the spec: the host's sequence-concatenation function on
character arguments (`c(nm, ...)`). -/
def stdCEval (x dots _env : Sexp) : Except String Sexp :=
  match chrArgs (x :: nodeCars dots) with
  | some l => Except.ok (Sexp.chr l Attrib.plain)
  | none => Except.error "unsupported argument types"

/-- Modelled from the spec: the host's default `names<-` method, which
stores a character vector of the owner's length (or removes the attribute
for a null name argument) under copy-on-write semantics. -/
def stdSetNamesDispatch (x nm _env : Sexp) : Except String Sexp :=
  if r_is_vector x = false then Except.error "names: invalid target"
  else
    match nm with
    | Sexp.null => Except.ok (withNames x none)
    | Sexp.chr l _ =>
      if l.length == r_length x then Except.ok (withNames x (some l))
      else Except.error "names attribute must be the same length as the vector"
    | _ => Except.error "invalid names"

/-- The standard host: default semantics for every template. -/
def stdHost : Host :=
  { namesDispatch := stdNamesDispatch
    asCharacter := stdAsCharacter
    asFunction := stdAsFunction
    fnEval := stdFnEval
    cEval := stdCEval
    setNamesDispatch := stdSetNamesDispatch }

/-- A host whose callable returns its first positional argument unchanged,
making the argument the strategy receives observable in the result. -/
def recvHost : Host :=
  { stdHost with fnEval := fun _f x _dots _env => Except.ok x }

/-! ## Helper lemmas -/

/-- Structural tag extraction never produces the missing string. -/
theorem nodeTagStr_noNA : ∀ (x : Sexp), RStr.na ∉ nodeTagStr x
  | .cons tag car cdr => by
    intro hmem
    rcases List.mem_cons.mp hmem with hhd | htl
    · cases tag <;> simp [nodeTagStr] at hhd
    · exact nodeTagStr_noNA cdr htl
  | .lang tag car cdr => by
    intro hmem
    rcases List.mem_cons.mp hmem with hhd | htl
    · cases tag <;> simp [nodeTagStr] at hhd
    · exact nodeTagStr_noNA cdr htl
  | .null => by simp [nodeTagStr]
  | .sym _ => by simp [nodeTagStr]
  | .environment _ _ => by simp [nodeTagStr]
  | .chr _ _ => by simp [nodeTagStr]
  | .int _ _ => by simp [nodeTagStr]
  | .lgl _ _ => by simp [nodeTagStr]
  | .vec _ _ => by simp [nodeTagStr]
  | .closure _ => by simp [nodeTagStr]

/-- On a proper chain, the structural walk emits one name per cell. -/
theorem nodeTagStr_length : ∀ (x : Sexp), properChain x = true →
    (nodeTagStr x).length = r_length x
  | .null, _ => by simp [nodeTagStr, r_length]
  | .cons tag car cdr, hp => by
    simp only [nodeTagStr, r_length, List.length_cons]
    rw [nodeTagStr_length cdr hp]
    omega
  | .lang tag car cdr, hp => by
    simp only [nodeTagStr, r_length, List.length_cons]
    rw [nodeTagStr_length cdr hp]
    omega
  | .sym _, hp => by simp [properChain] at hp
  | .environment _ _, hp => by simp [properChain] at hp
  | .chr _ _, hp => by simp [properChain] at hp
  | .int _ _, hp => by simp [properChain] at hp
  | .lgl _ _, hp => by simp [properChain] at hp
  | .vec _ _, hp => by simp [properChain] at hp
  | .closure _, hp => by simp [properChain] at hp

/-- The synthesized all-empty name vector has no missing entry. -/
theorem replicate_empty_noNA (n : Nat) : RStr.na ∉ List.replicate n (RStr.str "") := by
  intro hmem
  have := List.eq_of_mem_replicate hmem
  simp at this

/-- `naToEmpty` never yields the missing string. -/
theorem naToEmpty_ne_na (s : RStr) : naToEmpty s ≠ RStr.na := by
  unfold naToEmpty
  split <;> simp_all

/-- Missing-string replacement leaves no missing entry. -/
theorem map_naToEmpty_noNA (l : List RStr) : RStr.na ∉ l.map naToEmpty := by
  intro hmem
  rcases List.mem_map.mp hmem with ⟨s, _, hs⟩
  exact naToEmpty_ne_na s hs

/-- Missing-string replacement is the identity on a vector with no missing
entry. -/
theorem map_naToEmpty_of_noNA (l : List RStr) (hl : RStr.na ∉ l) :
    l.map naToEmpty = l := by
  induction l with
  | nil => rfl
  | cons s rest ih =>
    have hs : s ≠ RStr.na := fun hcontra => hl (hcontra ▸ List.mem_cons_self s rest)
    simp only [List.map_cons, naToEmpty, if_neg hs]
    rw [ih (fun hmem => hl (List.mem_cons_of_mem s hmem))]

/-- `rlang_names2` returns at its entry protection depth: its two `KEEP`s
are released by its `FREE(2)`. -/
theorem names2_depth_balance (h : Host) (x env : Sexp) (d : Nat) (v : Sexp) (dr : Nat)
    (hres : rlang_names2 h x env d = Res.ok v dr) : dr = d := by
  unfold rlang_names2 at hres
  split at hres
  · exact absurd hres (by simp)
  · split at hres
    · cases hres
      rfl
    · split at hres
      · exact absurd hres (by simp)
      · split at hres <;> (cases hres; omega)

/-- On a well-formed value, the fast-path accessor yields either no names
or a bare name vector of the owner's length. -/
theorem r_names_spec (x : Sexp) (hwf : wfNames x = true) :
    r_names x = Sexp.null ∨ ∃ nl, r_names x = Sexp.chr nl Attrib.plain ∧ nl.length = r_length x := by
  cases x with
  | chr l a =>
    cases hn : a.names with
    | none => left; simp [r_names, hn]
    | some nl =>
      right
      refine ⟨nl, by simp [r_names, hn], ?_⟩
      simp [wfNames, namesOk, hn] at hwf
      simpa [r_length] using hwf
  | int l a =>
    cases hn : a.names with
    | none => left; simp [r_names, hn]
    | some nl =>
      right
      refine ⟨nl, by simp [r_names, hn], ?_⟩
      simp [wfNames, namesOk, hn] at hwf
      simpa [r_length] using hwf
  | lgl l a =>
    cases hn : a.names with
    | none => left; simp [r_names, hn]
    | some nl =>
      right
      refine ⟨nl, by simp [r_names, hn], ?_⟩
      simp [wfNames, namesOk, hn] at hwf
      simpa [r_length] using hwf
  | vec l a =>
    cases hn : a.names with
    | none => left; simp [r_names, hn]
    | some nl =>
      right
      refine ⟨nl, by simp [r_names, hn], ?_⟩
      simp [wfNames, namesOk, hn] at hwf
      simpa [r_length] using hwf
  | _ => left; rfl

/-- A node-typed well-formed value is a proper chain. -/
theorem wf_properChain (x : Sexp)
    (hnode : r_typeof x = RType.listT ∨ r_typeof x = RType.langT)
    (hwf : wfNames x = true) : properChain x = true := by
  cases x <;> simp_all [r_typeof, wfNames, properChain]

/-! ## Claims -/

/-- A convenient concrete environment value for the witnesses. -/
def env0 : Sexp := Sexp.environment 0 false

/-- C4.  `rlang_names2` fails with the dedicated usage error exactly on
environment-typed inputs (classed or not), and no other input kind can
produce that error (the host's dispatched `names` method is assumed not to
raise this core's own usage message). -/
theorem names2_env_usage_error (h : Host) (x env : Sexp) (d : Nat)
    (hh : ∀ y e, h.namesDispatch y e ≠ Except.error envNamesMsg) :
    (r_typeof x = RType.envT → rlang_names2 h x env d = Res.err envNamesMsg)
    ∧ (r_typeof x ≠ RType.envT → rlang_names2 h x env d ≠ Res.err envNamesMsg) := by
  constructor
  · intro hx
    unfold rlang_names2
    rw [if_pos hx]
  · intro hx hcontra
    unfold rlang_names2 at hcontra
    rw [if_neg hx] at hcontra
    split at hcontra
    · exact absurd hcontra (by simp)
    · split at hcontra
      · rename_i e heq
        split at heq
        · cases hcontra
          exact hh x env heq
        · exact absurd heq (by simp)
      · split at hcontra <;> exact absurd hcontra (by simp)

/-- C4 witness: a classed environment aborts with the usage error, and a
plain vector does not produce it. -/
theorem names2_env_usage_error_w :
    rlang_names2 stdHost (Sexp.environment 1 true) env0 0 = Res.err envNamesMsg
    ∧ rlang_names2 stdHost (Sexp.int [1] Attrib.plain) env0 0 ≠ Res.err envNamesMsg := by
  have hh : ∀ y e, stdHost.namesDispatch y e ≠ Except.error envNamesMsg := by
    intro y e hcontra
    simp [stdHost, stdNamesDispatch] at hcontra
  exact ⟨(names2_env_usage_error stdHost (Sexp.environment 1 true) env0 0 hh).1 rfl,
    (names2_env_usage_error stdHost (Sexp.int [1] Attrib.plain) env0 0 hh).2 (by simp [r_typeof])⟩

/-- C5.  On assoc-lists and call-expressions, `rlang_names2` extracts names
structurally from the cell tags, emitting the canonical empty string for an
absent tag; on a proper chain the result has one entry per cell. -/
theorem names2_node_structural (h : Host) (x env : Sexp) (d : Nat)
    (hx : r_typeof x = RType.listT ∨ r_typeof x = RType.langT) :
    rlang_names2 h x env d = Res.ok (Sexp.chr (nodeTagStr x) Attrib.plain) d
    ∧ (properChain x = true → (nodeTagStr x).length = r_length x) := by
  have hne : ¬ r_typeof x = RType.envT := by
    rcases hx with hx | hx <;> simp [hx]
  constructor
  · unfold rlang_names2
    rw [if_neg hne, if_pos hx]
    rfl
  · exact nodeTagStr_length x

/-- C5 witness: on cells `[(tag=a,_), (tag=absent,_), (tag=b,_)]` the reader
returns `["a", "", "b"]`, of length 3 = the cell count. -/
theorem names2_node_structural_w :
    rlang_names2 stdHost (Sexp.cons (some "a") Sexp.null (Sexp.cons none Sexp.null (Sexp.cons (some "b") Sexp.null Sexp.null))) env0 0
      = Res.ok (Sexp.chr [RStr.str "a", RStr.str "", RStr.str "b"] Attrib.plain) 0
    ∧ (nodeTagStr (Sexp.cons (some "a") Sexp.null (Sexp.cons none Sexp.null (Sexp.cons (some "b") Sexp.null Sexp.null)))).length
        = r_length (Sexp.cons (some "a") Sexp.null (Sexp.cons none Sexp.null (Sexp.cons (some "b") Sexp.null Sexp.null))) := by
  have h := names2_node_structural stdHost
    (Sexp.cons (some "a") Sexp.null (Sexp.cons none Sexp.null (Sexp.cons (some "b") Sexp.null Sexp.null)))
    env0 0 (Or.inl rfl)
  exact ⟨h.1, h.2 rfl⟩

/-- C6.  `rlang_set_names` fails with the type error on every non-vector
`x`, whatever `nm` (and the other arguments) are: the check precedes
strategy resolution. -/
theorem set_names_requires_vector (h : Host) (x mold nm dots env : Sexp) (d : Nat)
    (hx : r_is_vector x = false) :
    rlang_set_names h x mold nm dots env d = Res.err xVecMsg := by
  unfold rlang_set_names
  rw [if_pos hx]

/-- C6 witness: a closure target fails with the type error (here with an
absent `nm`, and the same for a direct one). -/
theorem set_names_requires_vector_w :
    rlang_set_names stdHost (Sexp.closure 0) (Sexp.closure 0) Sexp.null Sexp.null env0 0 = Res.err xVecMsg
    ∧ rlang_set_names stdHost (Sexp.sym "s") (Sexp.sym "s") (Sexp.chr [RStr.str "a"] Attrib.plain) Sexp.null env0 0 = Res.err xVecMsg :=
  ⟨set_names_requires_vector stdHost (Sexp.closure 0) (Sexp.closure 0) Sexp.null Sexp.null env0 0 rfl,
   set_names_requires_vector stdHost (Sexp.sym "s") (Sexp.sym "s") (Sexp.chr [RStr.str "a"] Attrib.plain) Sexp.null env0 0 rfl⟩

/-- C1.  For every supported (non-environment) well-formed input, the
reader returns a character vector of `x`'s element count with no
missing-string entry: absent underlying names yield an all-empty vector,
and missing entries of present names are replaced by the canonical empty
string (the dispatched `names` method, when consulted, is assumed to honour
the host contract of returning either no names or a name vector of the
owner's length). -/
theorem names2_total_no_missing (h : Host) (x env : Sexp) (d : Nat)
    (hx : r_typeof x ≠ RType.envT)
    (hwf : wfNames x = true)
    (hdisp : r_is_object x = true → ∃ y, h.namesDispatch x env = Except.ok y ∧
      (y = Sexp.null ∨ ∃ nl na_, y = Sexp.chr nl na_ ∧ nl.length = r_length x)) :
    ∃ l a dr, rlang_names2 h x env d = Res.ok (Sexp.chr l a) dr
      ∧ l.length = r_length x ∧ RStr.na ∉ l := by
  by_cases hnode : r_typeof x = RType.listT ∨ r_typeof x = RType.langT
  · refine ⟨nodeTagStr x, Attrib.plain, d, ?_, nodeTagStr_length x (wf_properChain x hnode hwf), nodeTagStr_noNA x⟩
    unfold rlang_names2
    rw [if_neg hx, if_pos hnode]
    rfl
  · by_cases hobj : r_is_object x = true
    · obtain ⟨y, hy, hchar⟩ := hdisp hobj
      rcases hchar with hnull | ⟨nl, na_, hchr, hlen⟩
      · subst hnull
        refine ⟨List.replicate (r_length x) (RStr.str ""), Attrib.plain, d + 1 + 1 - 2, ?_, by simp, replicate_empty_noNA _⟩
        unfold rlang_names2
        rw [if_neg hx, if_neg hnode, if_pos hobj, hy]
        rfl
      · subst hchr
        refine ⟨nl.map naToEmpty, na_, d + 1 + 1 - 2, ?_, by simpa using hlen, map_naToEmpty_noNA nl⟩
        unfold rlang_names2
        rw [if_neg hx, if_neg hnode, if_pos hobj, hy]
        rfl
    · rcases r_names_spec x hwf with hnull | ⟨nl, hchr, hlen⟩
      · refine ⟨List.replicate (r_length x) (RStr.str ""), Attrib.plain, d + 1 + 1 - 2, ?_, by simp, replicate_empty_noNA _⟩
        unfold rlang_names2
        rw [if_neg hx, if_neg hnode, if_neg hobj, hnull]
        rfl
      · refine ⟨nl.map naToEmpty, Attrib.plain, d + 1 + 1 - 2, ?_, by simpa using hlen, map_naToEmpty_noNA nl⟩
        unfold rlang_names2
        rw [if_neg hx, if_neg hnode, if_neg hobj, hchr]
        rfl

/-- C1 witness: an integer vector of length 2 whose names contain a missing
entry yields a two-entry missing-free name vector. -/
theorem names2_total_no_missing_w :
    ∃ l a dr, rlang_names2 stdHost (Sexp.int [1, 2] ⟨some [RStr.str "a", RStr.na], false⟩) env0 0
        = Res.ok (Sexp.chr l a) dr
      ∧ l.length = r_length (Sexp.int [1, 2] ⟨some [RStr.str "a", RStr.na], false⟩)
      ∧ RStr.na ∉ l :=
  names2_total_no_missing stdHost (Sexp.int [1, 2] ⟨some [RStr.str "a", RStr.na], false⟩) env0 0
    (by decide) (by decide)
    (fun hc => absurd hc (by decide))

/-- C2.  On every strategy path (function-derived, direct with dots, direct
without dots), once the candidate new-names value is resolved, the final
gate rejects any candidate that is not a character vector of exactly `x`'s
element count with the type/length-mismatch error. -/
theorem set_names_length_gate (h : Host) (x mold nm dots env : Sexp) (d : Nat)
    (hx : r_is_vector x = true) (hnn : r_is_null nm = false) :
    ((r_is_function nm || r_is_formula nm) = true →
      ∀ m f c, ∀ dm : Nat,
        (if r_is_null (r_names mold) then liftE (h.asCharacter mold env) (d + 1) else rlang_names2 h mold env (d + 1)) = Res.ok m dm →
        h.asFunction nm env = Except.ok f →
        h.fnEval f m dots env = Except.ok c →
        r_is_character c (r_length x) = false →
        rlang_set_names h x mold nm dots env d = Res.err nmLenMsg)
    ∧ ((r_is_function nm || r_is_formula nm) = false → 0 < r_length dots →
      ∀ nm1 c,
        h.cEval nm dots env = Except.ok nm1 →
        h.asCharacter nm1 env = Except.ok c →
        r_is_character c (r_length x) = false →
        rlang_set_names h x mold nm dots env d = Res.err nmLenMsg)
    ∧ ((r_is_function nm || r_is_formula nm) = false → r_length dots = 0 →
      ∀ c,
        h.asCharacter nm env = Except.ok c →
        r_is_character c (r_length x) = false →
        rlang_set_names h x mold nm dots env d = Res.err nmLenMsg) := by
  refine ⟨?_, ?_, ?_⟩
  · intro hfn m f c dm hres hf hc hgate
    unfold rlang_set_names
    rw [if_neg (by simp [hx]), if_neg (by simp [hnn]), if_pos hfn, hres]
    simp only [hf, hc]
    unfold set_names_finish
    rw [if_neg (by simp [hgate])]
  · intro hfn hd nm1 c hcev hcoerce hgate
    unfold rlang_set_names
    rw [if_neg (by simp [hx]), if_neg (by simp [hnn]), if_neg (by simp [hfn]), if_pos hd]
    simp only [hcev, hcoerce]
    unfold set_names_finish
    rw [if_neg (by simp [hgate])]
  · intro hfn hd c hcoerce hgate
    unfold rlang_set_names
    rw [if_neg (by simp [hx]), if_neg (by simp [hnn]), if_neg (by simp [hfn]),
      if_neg (by simp [hd])]
    simp only [hcoerce]
    unfold set_names_finish
    rw [if_neg (by simp [hgate])]

/-- C2 witness: a direct two-name candidate against a length-3 vector fails
the gate, and so does a function-derived length-3 candidate against a
length-2 vector. -/
theorem set_names_length_gate_w :
    rlang_set_names stdHost (Sexp.int [1, 2, 3] Attrib.plain) (Sexp.int [1, 2, 3] Attrib.plain)
        (Sexp.chr [RStr.str "a", RStr.str "b"] Attrib.plain) Sexp.null env0 0 = Res.err nmLenMsg
    ∧ rlang_set_names recvHost (Sexp.int [1, 2] Attrib.plain) (Sexp.int [1, 2, 3] Attrib.plain)
        (Sexp.closure 0) Sexp.null env0 0 = Res.err nmLenMsg :=
  ⟨(set_names_length_gate stdHost (Sexp.int [1, 2, 3] Attrib.plain) (Sexp.int [1, 2, 3] Attrib.plain)
      (Sexp.chr [RStr.str "a", RStr.str "b"] Attrib.plain) Sexp.null env0 0 rfl rfl).2.2 rfl rfl
      (Sexp.chr [RStr.str "a", RStr.str "b"] Attrib.plain) rfl rfl,
   (set_names_length_gate recvHost (Sexp.int [1, 2] Attrib.plain) (Sexp.int [1, 2, 3] Attrib.plain)
      (Sexp.closure 0) Sexp.null env0 0 rfl rfl).1 rfl
      (Sexp.chr [RStr.str "1", RStr.str "2", RStr.str "3"] Attrib.plain) (Sexp.closure 0)
      (Sexp.chr [RStr.str "1", RStr.str "2", RStr.str "3"] Attrib.plain) 1 rfl rfl rfl rfl⟩

/-- C3 counterexample: a direct `nm` of length 2 against a vector of length
3 does NOT fail when the dots are non-empty — `nm` is first concatenated
with the dots, the concatenated candidate has length 3, and the assignment
succeeds with names `["a", "b", "c"]`. -/
theorem set_names_direct_dots_cex :
    r_is_null (Sexp.chr [RStr.str "a", RStr.str "b"] Attrib.plain) = false
    ∧ (r_is_function (Sexp.chr [RStr.str "a", RStr.str "b"] Attrib.plain)
        || r_is_formula (Sexp.chr [RStr.str "a", RStr.str "b"] Attrib.plain)) = false
    ∧ r_length (Sexp.chr [RStr.str "a", RStr.str "b"] Attrib.plain)
        ≠ r_length (Sexp.int [1, 2, 3] Attrib.plain)
    ∧ rlang_set_names stdHost (Sexp.int [1, 2, 3] Attrib.plain) (Sexp.int [1, 2, 3] Attrib.plain)
        (Sexp.chr [RStr.str "a", RStr.str "b"] Attrib.plain)
        (Sexp.cons none (Sexp.chr [RStr.str "c"] Attrib.plain) Sexp.null) env0 0
      = Res.ok (Sexp.int [1, 2, 3] ⟨some [RStr.str "a", RStr.str "b", RStr.str "c"], false⟩) 0 :=
  ⟨rfl, rfl, by decide, rfl⟩

/-- C3 amended.  With a direct `nm` and EMPTY dots, a character-coercion
that keeps `nm`'s length makes the call fail with the length-mismatch error
whenever that length differs from `x`'s element count; with non-empty dots
the gate instead applies to the concatenation of `nm` with the dots, which
can pass. -/
theorem set_names_direct_mismatch_no_dots (h : Host) (x mold nm dots env : Sexp) (d : Nat)
    (l : List RStr) (a : Attrib)
    (hx : r_is_vector x = true) (hnn : r_is_null nm = false)
    (hfn : (r_is_function nm || r_is_formula nm) = false)
    (hdots : r_length dots = 0)
    (hcoerce : h.asCharacter nm env = Except.ok (Sexp.chr l a))
    (hlen : l.length = r_length nm)
    (hmis : r_length nm ≠ r_length x) :
    rlang_set_names h x mold nm dots env d = Res.err nmLenMsg := by
  have hgate : r_is_character (Sexp.chr l a) (r_length x) = false := by
    simp only [r_is_character, hlen]
    simpa using hmis
  unfold rlang_set_names
  rw [if_neg (by simp [hx]), if_neg (by simp [hnn]), if_neg (by simp [hfn]),
    if_neg (by simp [hdots])]
  simp only [hcoerce]
  unfold set_names_finish
  rw [if_neg (by simp [hgate])]

/-- C3 amended witness: same mismatched direct `nm` as the counterexample,
but with empty dots, fails with the length-mismatch error. -/
theorem set_names_direct_mismatch_no_dots_w :
    rlang_set_names stdHost (Sexp.int [1, 2, 3] Attrib.plain) (Sexp.int [1, 2, 3] Attrib.plain)
      (Sexp.chr [RStr.str "a", RStr.str "b"] Attrib.plain) Sexp.null env0 0 = Res.err nmLenMsg :=
  set_names_direct_mismatch_no_dots stdHost (Sexp.int [1, 2, 3] Attrib.plain)
    (Sexp.int [1, 2, 3] Attrib.plain) (Sexp.chr [RStr.str "a", RStr.str "b"] Attrib.plain)
    Sexp.null env0 0 [RStr.str "a", RStr.str "b"] Attrib.plain
    rfl rfl rfl rfl rfl (by decide) (by decide)

/-- C7.  With a function or formula `nm`, the argument handed to the
callable is the mold's character-coerced values when the mold has no names
and the mold's `rlang_names2` names otherwise; the callable is invoked on
that argument followed by the dots, and its return value becomes the
candidate submitted to the final gate. -/
theorem set_names_function_strategy (h : Host) (x mold nm dots env : Sexp) (d : Nat)
    (m f : Sexp) (dm : Nat)
    (hx : r_is_vector x = true) (hnn : r_is_null nm = false)
    (hfn : (r_is_function nm || r_is_formula nm) = true)
    (hres : (if r_is_null (r_names mold) then liftE (h.asCharacter mold env) (d + 1) else rlang_names2 h mold env (d + 1)) = Res.ok m dm)
    (hf : h.asFunction nm env = Except.ok f) :
    rlang_set_names h x mold nm dots env d =
      (match h.fnEval f m dots env with
       | Except.error e => Res.err e
       | Except.ok c => set_names_finish h x c env (dm + 1 + 1 + 1) 4) := by
  unfold rlang_set_names
  rw [if_neg (by simp [hx]), if_neg (by simp [hnn]), if_pos hfn, hres]
  simp only [hf]

/-- C7 witness: for `x = [10, 20]` with no names, `mold = x` and an
argument-returning callable, the strategy receives `["10", "20"]` (the
mold's coerced values), which then become the assigned names. -/
theorem set_names_function_strategy_w :
    rlang_set_names recvHost (Sexp.int [10, 20] Attrib.plain) (Sexp.int [10, 20] Attrib.plain)
        (Sexp.closure 0) Sexp.null env0 0
      = Res.ok (Sexp.int [10, 20] ⟨some [RStr.str "10", RStr.str "20"], false⟩) 0 :=
  (set_names_function_strategy recvHost (Sexp.int [10, 20] Attrib.plain)
    (Sexp.int [10, 20] Attrib.plain) (Sexp.closure 0) Sexp.null env0 0
    (Sexp.chr [RStr.str "10", RStr.str "20"] Attrib.plain) (Sexp.closure 0) 1
    rfl rfl rfl rfl rfl).trans rfl

/-- C10.  A candidate that passes the final gate is handed to the
name-assignment template unchanged: in particular a character candidate of
the right length whose entries include the missing-string sentinel is
accepted by the gate and assigned verbatim — the writer performs none of
the reader's missing-entry normalization. -/
theorem set_names_no_na_normalization (h : Host) (x mold nm dots env : Sexp) (d : Nat)
    (l : List RStr) (a : Attrib)
    (_hna : RStr.na ∈ l) (hlen : l.length = r_length x) :
    (∀ dep k, set_names_finish h x (Sexp.chr l a) env dep k =
      (match h.setNamesDispatch x (Sexp.chr l a) env with
       | Except.ok y => Res.ok y (dep - k)
       | Except.error e => Res.err e))
    ∧ (r_is_vector x = true → r_is_null nm = false →
       (r_is_function nm || r_is_formula nm) = false → r_length dots = 0 →
       h.asCharacter nm env = Except.ok (Sexp.chr l a) →
       rlang_set_names h x mold nm dots env d =
         (match h.setNamesDispatch x (Sexp.chr l a) env with
          | Except.ok y => Res.ok y d
          | Except.error e => Res.err e)) := by
  have hgate : r_is_character (Sexp.chr l a) (r_length x) = true := by
    simp [r_is_character, hlen]
  constructor
  · intro dep k
    unfold set_names_finish
    rw [if_pos hgate]
    cases h.setNamesDispatch x (Sexp.chr l a) env <;> rfl
  · intro hx hnn hfn hd hcoerce
    unfold rlang_set_names
    rw [if_neg (by simp [hx]), if_neg (by simp [hnn]), if_neg (by simp [hfn]),
      if_neg (by simp [hd])]
    simp only [hcoerce]
    unfold set_names_finish
    rw [if_pos hgate]
    cases h.setNamesDispatch x (Sexp.chr l a) env <;> rfl

/-- C10 witness: the candidate `[NA]` for a length-1 vector passes the gate
and is assigned verbatim, the missing entry intact. -/
theorem set_names_no_na_normalization_w :
    rlang_set_names stdHost (Sexp.int [5] Attrib.plain) (Sexp.int [5] Attrib.plain)
        (Sexp.chr [RStr.na] Attrib.plain) Sexp.null env0 0
      = Res.ok (Sexp.int [5] ⟨some [RStr.na], false⟩) 0 :=
  ((set_names_no_na_normalization stdHost (Sexp.int [5] Attrib.plain) (Sexp.int [5] Attrib.plain)
    (Sexp.chr [RStr.na] Attrib.plain) Sexp.null env0 0 [RStr.na] Attrib.plain
    (by decide) (by decide)).2 rfl rfl rfl rfl rfl).trans rfl

/-- `withNames` commutes with `r_typeof`. -/
theorem withNames_typeof (x : Sexp) (nm : Option (List RStr)) :
    r_typeof (withNames x nm) = r_typeof x := by
  cases x <;> rfl

/-- On a vector, `withNames` installs exactly the given names. -/
theorem withNames_names (x : Sexp) (l : List RStr) (hx : r_is_vector x = true) :
    r_names (withNames x (some l)) = Sexp.chr l Attrib.plain := by
  cases x <;> simp_all [r_is_vector, withNames, r_names]

/-- A vector's type tag is none of the specially handled ones. -/
theorem vector_typeof (x : Sexp) (hx : r_is_vector x = true) :
    r_typeof x ≠ RType.envT ∧ r_typeof x ≠ RType.listT ∧ r_typeof x ≠ RType.langT := by
  cases x <;> simp_all [r_is_vector, r_typeof]

/-- The write half of the round trip under the standard host: a direct
character `nm` of the right length and empty dots yields `x` with exactly
those names installed, at the entry depth. -/
theorem set_names_std_direct (x env : Sexp) (d : Nat) (l : List RStr)
    (hx : r_is_vector x = true) (hlen : l.length = r_length x) :
    rlang_set_names stdHost x x (Sexp.chr l Attrib.plain) Sexp.null env d
      = Res.ok (withNames x (some l)) d := by
  unfold rlang_set_names
  rw [if_neg (by simp [hx]), if_neg (by simp [r_is_null]),
    if_neg (by simp [r_is_function, r_is_formula]), if_neg (by simp [r_length])]
  show (match stdAsCharacter (Sexp.chr l Attrib.plain) env with
    | Except.error e => Res.err e
    | Except.ok c => set_names_finish stdHost x c env (d + 1 + 1) 2) = _
  simp only [stdAsCharacter]
  unfold set_names_finish
  rw [if_pos (by simp [r_is_character, hlen])]
  show (match stdSetNamesDispatch x (Sexp.chr l Attrib.plain) env with
    | Except.error e => Res.err e
    | Except.ok y => Res.ok y (d + 1 + 1 - 2)) = _
  unfold stdSetNamesDispatch
  rw [if_neg (by simp [hx])]
  simp [hlen]

/-- The read half of the round trip under the standard host: reading back
the names just installed on a vector returns them with missing entries
replaced, at the entry depth. -/
theorem names2_std_withNames (x env : Sexp) (d : Nat) (l : List RStr)
    (hx : r_is_vector x = true) :
    rlang_names2 stdHost (withNames x (some l)) env d
      = Res.ok (Sexp.chr (l.map naToEmpty) Attrib.plain) d := by
  obtain ⟨henv, hlist, hlang⟩ := vector_typeof x hx
  unfold rlang_names2
  rw [withNames_typeof, if_neg henv, if_neg (fun hc => hc.elim hlist hlang)]
  have hnm : r_names (withNames x (some l)) = Sexp.chr l Attrib.plain :=
    withNames_names x l hx
  have hok : (if r_is_object (withNames x (some l)) = true
      then stdHost.namesDispatch (withNames x (some l)) env
      else Except.ok (r_names (withNames x (some l))))
      = Except.ok (Sexp.chr l Attrib.plain) := by
    split
    · show stdNamesDispatch (withNames x (some l)) env = _
      unfold stdNamesDispatch
      rw [hnm]
    · rw [hnm]
  rw [hok]
  show (if r_is_null (Sexp.chr l Attrib.plain) = true then _ else
    Res.ok (rlang_replace_na (Sexp.chr l Attrib.plain)) (d + 1 + 1 - 2)) = _
  rw [if_neg (by simp [r_is_null])]
  simp [rlang_replace_na]

/-- C8.  Round trip: writing a missing-free character vector of the right
length as names (direct strategy, empty dots) and reading the names back
returns exactly that vector — no empty-string or missing substitution is
introduced. -/
theorem set_names_names2_roundtrip (x env : Sexp) (d : Nat) (l : List RStr)
    (hx : r_is_vector x = true) (hlen : l.length = r_length x) (hna : RStr.na ∉ l) :
    ∃ y, rlang_set_names stdHost x x (Sexp.chr l Attrib.plain) Sexp.null env d = Res.ok y d
      ∧ rlang_names2 stdHost y env d = Res.ok (Sexp.chr l Attrib.plain) d := by
  refine ⟨withNames x (some l), set_names_std_direct x env d l hx hlen, ?_⟩
  rw [names2_std_withNames x env d l hx, map_naToEmpty_of_noNA l hna]

/-- C8 witness: the round trip on `[1, 2, 3]` with names `["a", "b", "c"]`. -/
theorem set_names_names2_roundtrip_w :
    ∃ y, rlang_set_names stdHost (Sexp.int [1, 2, 3] Attrib.plain) (Sexp.int [1, 2, 3] Attrib.plain)
        (Sexp.chr [RStr.str "a", RStr.str "b", RStr.str "c"] Attrib.plain) Sexp.null env0 0 = Res.ok y 0
      ∧ rlang_names2 stdHost y env0 0
        = Res.ok (Sexp.chr [RStr.str "a", RStr.str "b", RStr.str "c"] Attrib.plain) 0 :=
  set_names_names2_roundtrip (Sexp.int [1, 2, 3] Attrib.plain) env0 0
    [RStr.str "a", RStr.str "b", RStr.str "c"] rfl (by decide) (by decide)

/-- `liftE` preserves the depth on success. -/
theorem liftE_ok (e : Except String Sexp) (dd : Nat) (v : Sexp) (dr : Nat)
    (hres : liftE e dd = Res.ok v dr) : dr = dd := by
  cases e <;> simp [liftE] at hres
  exact hres.2.symm

/-- The shared gate-and-assign tail releases all `k` protections acquired
since entry on normal return. -/
theorem set_names_finish_ok (h : Host) (x c env : Sexp) (dep k : Nat) (v : Sexp) (dr : Nat)
    (hres : set_names_finish h x c env dep k = Res.ok v dr) : dr = dep - k := by
  unfold set_names_finish at hres
  split at hres
  · split at hres
    · exact absurd hres (by simp)
    · cases hres
      rfl
  · exact absurd hres (by simp)

/-- `rlang_set_names` returns at its entry protection depth: `FREE(n_kept)`
releases exactly the acquisitions made on each path. -/
theorem set_names_depth_balance (h : Host) (x mold nm dots env : Sexp) (d : Nat)
    (v : Sexp) (dr : Nat)
    (hres : rlang_set_names h x mold nm dots env d = Res.ok v dr) : dr = d := by
  unfold rlang_set_names at hres
  split at hres
  · exact absurd hres (by simp)
  · split at hres
    · split at hres
      · exact absurd hres (by simp)
      · cases hres
        omega
    · split at hres
      · split at hres
        · exact absurd hres (by simp)
        · rename_i m dm heq
          have hdm : dm = d + 1 := by
            split at heq
            · exact liftE_ok _ _ _ _ heq
            · exact names2_depth_balance h mold env (d + 1) m dm heq
          split at hres
          · exact absurd hres (by simp)
          · split at hres
            · exact absurd hres (by simp)
            · have := set_names_finish_ok h x _ env (dm + 1 + 1 + 1) 4 v dr hres
              omega
      · split at hres
        · split at hres
          · exact absurd hres (by simp)
          · split at hres
            · exact absurd hres (by simp)
            · have := set_names_finish_ok h x _ env (d + 1 + 1 + 1) 3 v dr hres
              omega
        · split at hres
          · exact absurd hres (by simp)
          · have := set_names_finish_ok h x _ env (d + 1 + 1) 2 v dr hres
            omega

/-- C9.  Protection-stack balance: for every call to the reader or the
writer, the observable protection depth after the call (normal return, or
error propagation with its host-side unwinding, see `depthAfter`) equals
the depth at entry; on normal returns the code's own `FREE`s release
exactly the acquisitions made. -/
theorem protect_depth_balance (h : Host) (x mold nm dots env : Sexp) (d : Nat) :
    depthAfter (rlang_names2 h x env d) d = d
    ∧ depthAfter (rlang_set_names h x mold nm dots env d) d = d := by
  constructor
  · cases hres : rlang_names2 h x env d with
    | ok v dr =>
      simpa [depthAfter] using names2_depth_balance h x env d v dr hres
    | err m => rfl
  · cases hres : rlang_set_names h x mold nm dots env d with
    | ok v dr =>
      simpa [depthAfter] using set_names_depth_balance h x mold nm dots env d v dr hres
    | err m => rfl

end Rlang
